import Mathlib

/-!
Shallow embedding of `src/onewire_uart/src/ow/ow.c` (OneWire-UART library,
v2.0.0).  The low-level UART driver is modelled as a state machine
(`LLDrv`): `set_baudrate` and `tx_rx` transform an abstract driver state and
report success.  Every embedded operation additionally returns the list of
transport calls it performed (`Event`), so that trace properties of the C
code can be stated.  Machine integers are `Nat`; all byte values produced by
the code stay below 256 by construction (shift-right then or with a 1-bit
shifted to position 7, exactly as the `uint8_t` arithmetic in the source).
-/

/-- Result codes, mirroring `owr_t` from `ow.h` as used by `ow.c`. -/
inductive Owr where
  | ok
  | err
  | errpresence
  | errtxrx
  | errbaud
  | errnodev
  deriving DecidableEq, Repr

/-- One observed transport call: a `set_baudrate(rate)` returning `ok`, or a
`tx_rx` exchange of the octet list `tx` answered by `rx` (`none` = driver
failure). -/
inductive Event where
  | setBaud (rate : Nat) (ok : Bool)
  | txRx (tx : List Nat) (rx : Option (List Nat))
  deriving DecidableEq, Repr

/-- The low-level driver capability (`ow_ll_drv_t`): `set_baudrate` and
`tx_rx`, each transforming an abstract driver state `σ`.  `tx_rx` returns
`none` on failure, otherwise the received octets. -/
structure LLDrv (σ : Type) where
  set_baudrate : Nat → σ → Bool × σ
  tx_rx : List Nat → σ → Option (List Nat) × σ

/-- First `n` octets of `l`, padded with `0`: in C, `tx_rx` writes into a
caller buffer of exactly `len` octets, so the received data always has the
requested length. -/
def padTake : Nat → List Nat → List Nat
  | 0, _ => []
  | n + 1, l => l.headD 0 :: padTake n l.tail

/-- `tx_rx` with the C buffer semantics: on success the received list has
exactly the length of the transmitted one. -/
def LLDrv.txRxN (d : LLDrv σ) (tx : List Nat) (s : σ) : Option (List Nat) × σ :=
  match d.tx_rx tx s with
  | (none, s1) => (none, s1)
  | (some rx, s1) => (some (padTake tx.length rx), s1)

/-- Session state (`ow_t`): the working ROM buffer (8 octets) and the
`disrepancy` marker. -/
structure OwState where
  rom : List Nat
  disrepancy : Nat
  deriving DecidableEq, Repr

/-- Result of a single-bit exchange: result code, the read bit (what `*btr`
holds afterwards), driver state, transport trace. -/
structure BitRes (σ : Type) where
  res : Owr
  bit : Nat
  s : σ
  events : List Event

/-- Result of `ow_reset_raw`. -/
structure ResetRes (σ : Type) where
  res : Owr
  s : σ
  events : List Event

/-- Result of a byte exchange: result code, the byte read back (what `*br`
holds afterwards), driver state, transport trace. -/
structure ByteRes (σ : Type) where
  res : Owr
  val : Nat
  s : σ
  events : List Event

/-- `send_bit` from `ow.c`: logical 1 is sent as UART octet `0xFF`, logical 0
as `0x00`; the read bit is 1 exactly when the sampled octet is `0xFF`. -/
def send_bit (d : LLDrv σ) (s : σ) (btw : Nat) : BitRes σ :=
  let tb := if btw > 0 then 0xFF else 0x00
  match d.txRxN [tb] s with
  | (none, s1) => ⟨.errtxrx, 0, s1, [.txRx [tb] none]⟩
  | (some rx, s1) =>
      ⟨.ok, if rx.getD 0 0 = 0xFF then 1 else 0, s1, [.txRx [tb] (some rx)]⟩

/-- `ow_reset_raw`: switch to 9600 baud, exchange one `0xF0` octet, switch
back to 115200 baud, then interpret the sampled octet (`0x00` or `0xF0` =
no presence). -/
def ow_reset_raw (d : LLDrv σ) (s : σ) : ResetRes σ :=
  match d.set_baudrate 9600 s with
  | (false, s1) => ⟨.errbaud, s1, [.setBaud 9600 false]⟩
  | (true, s1) =>
    match d.txRxN [0xF0] s1 with
    | (none, s2) => ⟨.errtxrx, s2, [.setBaud 9600 true, .txRx [0xF0] none]⟩
    | (some rx, s2) =>
      match d.set_baudrate 115200 s2 with
      | (false, s3) =>
          ⟨.errbaud, s3,
            [.setBaud 9600 true, .txRx [0xF0] (some rx), .setBaud 115200 false]⟩
      | (true, s3) =>
          if rx.getD 0 0 = 0 ∨ rx.getD 0 0 = 0xF0 then
            ⟨.errpresence, s3,
              [.setBaud 9600 true, .txRx [0xF0] (some rx), .setBaud 115200 true]⟩
          else
            ⟨.ok, s3,
              [.setBaud 9600 true, .txRx [0xF0] (some rx), .setBaud 115200 true]⟩

/-- The 8-octet tx buffer prepared by `ow_write_byte_ex_raw`:
`tr[i] = (btw & (1 << i)) ? 0xFF : 0x00`. -/
def txBytesOfByte (btw : Nat) : List Nat :=
  [0, 1, 2, 3, 4, 5, 6, 7].map (fun i => if btw.testBit i then 0xFF else 0x00)

/-- Reassembly of the byte read back by `ow_write_byte_ex_raw`:
bit `i` is set exactly when the `i`-th received octet equals `0xFF`. -/
def readByteOfRx (rx : List Nat) : Nat :=
  [0, 1, 2, 3, 4, 5, 6, 7].foldl
    (fun r i => if rx.getD i 0 = 0xFF then r ||| (1 <<< i) else r) 0

/-- `ow_write_byte_ex_raw`: one 8-octet exchange, one octet per bit,
LSB first. -/
def ow_write_byte_ex_raw (d : LLDrv σ) (s : σ) (btw : Nat) : ByteRes σ :=
  let tr := txBytesOfByte btw
  match d.txRxN tr s with
  | (none, s1) => ⟨.errtxrx, 0, s1, [.txRx tr none]⟩
  | (some rx, s1) => ⟨.ok, readByteOfRx rx, s1, [.txRx tr (some rx)]⟩

/-- `ow_read_byte_ex_raw`: reading is writing `0xFF`. -/
def ow_read_byte_ex_raw (d : LLDrv σ) (s : σ) : ByteRes σ :=
  ow_write_byte_ex_raw d s 0xFF

/-- One bit step of `ow_crc`: XOR of the CRC LSB with the input LSB decides
whether to XOR `0x8C` into the right-shifted CRC; the input byte is shifted
right as well. -/
def crcBitStep : Nat × Nat → Nat × Nat
  | (crc, inbyte) =>
    let mix := (crc ^^^ inbyte) &&& 1
    let crc1 := crc >>> 1
    (if mix ≠ 0 then crc1 ^^^ 0x8C else crc1, inbyte >>> 1)

/-- The inner 8-iteration loop of `ow_crc`, absorbing one input byte. -/
def crcByte (crc inbyte : Nat) : Nat :=
  (crcBitStep (crcBitStep (crcBitStep (crcBitStep (crcBitStep (crcBitStep
    (crcBitStep (crcBitStep (crc, inbyte))))))))).1

/-- `ow_crc`: Dallas/Maxim CRC-8 over an octet list, initial value 0.
(The C function returns 0 for `NULL`/empty input, which coincides with the
fold over the empty list.) -/
def ow_crc (l : List Nat) : Nat := l.foldl crcByte 0

/-- How the `ow_search_with_command_raw` loop leaves: all 64 bits consumed
(`completed`), the `(1,1)` abort via `goto out` with `remaining` bits left
(`noDevice`), or the early `return owERRTXRX` that skips the epilogue
(`txrxErr`). -/
inductive LoopExit where
  | completed
  | noDevice (remaining : Nat)
  | txrxErr
  deriving DecidableEq, Repr

/-- State carried out of the 64-bit search loop: exit kind, the (possibly
partially rewritten) session ROM buffer, the accumulated `next_disrepancy`,
the driver state and the transport trace. -/
structure LoopRes (σ : Type) where
  exit : LoopExit
  rom : List Nat
  nextDis : Nat
  s : σ
  events : List Event

/-- The collision decision of `ow_search_with_command_raw` at bit position
`p` (`id_bit_number`, counting 64 down to 1), previous-pass marker `dis`
(`ow->disrepancy`) and current ROM byte `cur` (`*id`, whose LSB is the bit
chosen at `p` in the previous pass): the C code sets `b = 1` and
`next_disrepancy = p` exactly when `p < dis || ((cur & 1) && dis != p)`,
otherwise keeps `b = 0` and leaves `next_disrepancy` alone. -/
def searchChoose (p dis cur : Nat) : Nat × Bool :=
  if p < dis ∨ ((cur &&& 1) ≠ 0 ∧ dis ≠ p) then (1, true) else (0, false)

/-- The 64-bit loop of `ow_search_with_command_raw`.  `n` is
`id_bit_number` (the number of bits still to process, started at 64); the
byte currently shifted is `rom[(64 - n) / 8]`, matching the `id` pointer
walk in the C code.  The third `send_bit` (the direction write) has its
result ignored, exactly as in the source. -/
def searchLoop (d : LLDrv σ) : Nat → σ → List Nat → Nat → Nat → LoopRes σ
  | 0, s, rom, _, nextDis => ⟨.completed, rom, nextDis, s, []⟩
  | n + 1, s, rom, dis, nextDis =>
    let p := n + 1
    let r1 := send_bit d s 1
    if r1.res = .ok then
      let r2 := send_bit d r1.s 1
      if r2.res = .ok then
        if r1.bit ≠ 0 ∧ r2.bit ≠ 0 then
          ⟨.noDevice p, rom, nextDis, r2.s, r1.events ++ r2.events⟩
        else
          let byteIdx := (64 - p) / 8
          let cur := rom.getD byteIdx 0
          let ch := if r1.bit = 0 ∧ r2.bit = 0 then searchChoose p dis cur
                    else (r1.bit, false)
          let nd := if ch.2 then p else nextDis
          let r3 := send_bit d r2.s ch.1
          let rom1 := rom.set byteIdx ((cur >>> 1) ||| (ch.1 <<< 7))
          let rest := searchLoop d n r3.s rom1 dis nd
          ⟨rest.exit, rest.rom, rest.nextDis, rest.s,
            r1.events ++ r2.events ++ r3.events ++ rest.events⟩
      else ⟨.txrxErr, rom, nextDis, r2.s, r1.events ++ r2.events⟩
    else ⟨.txrxErr, rom, nextDis, r1.s, r1.events⟩

/-- `ow_search_reset_raw`: set the marker to `OW_FIRST_DEV` (0xFF). -/
def ow_search_reset_raw (st : OwState) : OwState :=
  { st with disrepancy := 0xFF }

/-- Result of one search call: result code, new session state, what was
copied into the caller's `*rom_id` (`none` on paths that return before the
`out:` epilogue), driver state and transport trace. -/
structure SearchRes (σ : Type) where
  res : Owr
  st : OwState
  written : Option (List Nat)
  s : σ
  events : List Event

/-- The epilogue dispatch of `ow_search_with_command_raw`: the `txrxErr`
early return leaves `ow->disrepancy` untouched and does not copy the ROM
out; completion and the `(1,1)` abort both run the `out:` epilogue, which
stores `next_disrepancy` and copies the session ROM buffer to `*rom_id`. -/
def searchFinish (st : OwState) (pre : List Event) (lr : LoopRes σ) : SearchRes σ :=
  match lr.exit with
  | .txrxErr => ⟨.errtxrx, ⟨lr.rom, st.disrepancy⟩, none, lr.s, pre ++ lr.events⟩
  | .completed => ⟨.ok, ⟨lr.rom, lr.nextDis⟩, some lr.rom, lr.s, pre ++ lr.events⟩
  | .noDevice _ => ⟨.errnodev, ⟨lr.rom, lr.nextDis⟩, some lr.rom, lr.s, pre ++ lr.events⟩

/-- `ow_search_with_command_raw`: last-device check (marker 0), reset,
search command write (result ignored in the source), then the 64-bit loop
and its epilogue. -/
def ow_search_with_command_raw (d : LLDrv σ) (st : OwState) (cmd : Nat) (s : σ) :
    SearchRes σ :=
  if st.disrepancy = 0 then
    ⟨.errnodev, ow_search_reset_raw st, none, s, []⟩
  else
    let rr := ow_reset_raw d s
    if rr.res = .ok then
      let wr := ow_write_byte_ex_raw d rr.s cmd
      let lr := searchLoop d 64 wr.s st.rom st.disrepancy 0
      searchFinish st (rr.events ++ wr.events) lr
    else ⟨rr.res, st, none, rr.s, rr.events⟩

/-- `ow_search_raw` fixes the command to `OW_CMD_SEARCHROM` (0xF0). -/
def ow_search_raw (d : LLDrv σ) (st : OwState) (s : σ) : SearchRes σ :=
  ow_search_with_command_raw d st 0xF0 s

/-- The search loop of `ow_search_with_command_callback`, with explicit
fuel (`none` = fuel exhausted; the C loop is unbounded in the transport).
On each round: one search; stop with its result if it is not OK, otherwise
invoke the callback with the found ROM and the running index, stop with the
callback result if that is not OK (`break` skips the `++i`). -/
def searchCallbackLoop (d : LLDrv σ) (cmd : Nat)
    (cb : Option (List Nat) → Nat → κ → Owr × κ) :
    Nat → OwState → σ → κ → Nat → Option (Owr × OwState × σ × κ × Nat)
  | 0, _, _, _, _ => none
  | fuel + 1, st, s, k, i =>
    let R := ow_search_with_command_raw d st cmd s
    if R.res = .ok then
      let c := cb R.written i k
      if c.1 = .ok then searchCallbackLoop d cmd cb fuel R.st R.s c.2 (i + 1)
      else some (c.1, R.st, R.s, c.2, i)
    else some (R.res, R.st, R.s, k, i)

/-- `ow_search_with_command_callback`: search reset, the loop above, one
final callback invocation with a null ROM (result discarded), and the
unconditional `ERRNODEV → OK` rewrite of the final result.  The returned
`Nat` is what `*roms_found` receives. -/
def ow_search_with_command_callback (d : LLDrv σ) (cmd : Nat)
    (cb : Option (List Nat) → Nat → κ → Owr × κ) (fuel : Nat)
    (st : OwState) (s : σ) (k : κ) : Option (Owr × OwState × σ × κ × Nat) :=
  match searchCallbackLoop d cmd cb fuel (ow_search_reset_raw st) s k 0 with
  | none => none
  | some (res, st1, s1, k1, i) =>
    let c := cb none i k1
    some ((if res = .errnodev then .ok else res), st1, s1, c.2, i)

/-- The bounded loop of `ow_search_devices_with_command_raw`: up to
`rom_len` searches, collecting the ROMs written to the caller's array and
stopping at the first non-OK result.  When all slots fill, the result is
that of the last (successful) search. -/
def searchDevicesLoop (d : LLDrv σ) (cmd : Nat) :
    Nat → OwState → σ → Owr × OwState × σ × List (List Nat)
  | 0, st, s => (.ok, st, s, [])
  | n + 1, st, s =>
    let R := ow_search_with_command_raw d st cmd s
    if R.res = .ok then
      let t := searchDevicesLoop d cmd n R.st R.s
      (t.1, t.2.1, t.2.2.1, R.written.getD [] :: t.2.2.2)
    else (R.res, R.st, R.s, [])

/-- `ow_search_devices_with_command_raw`: search reset, the bounded loop,
`*roms_found := cnt`, and the `ERRNODEV → OK` rewrite guarded by
`cnt > 0`. -/
def ow_search_devices_with_command_raw (d : LLDrv σ) (cmd : Nat) (rom_len : Nat)
    (st : OwState) (s : σ) : Owr × OwState × σ × List (List Nat) × Nat :=
  let t := searchDevicesLoop d cmd rom_len (ow_search_reset_raw st) s
  let cnt := t.2.2.2.length
  ((if t.1 = .errnodev ∧ cnt > 0 then .ok else t.1), t.2.1, t.2.2.1, t.2.2.2, cnt)

/-! ## Concrete transports used as test vehicles -/

/-- The value of an 8-octet ROM as a 64-bit little-endian integer (octet 0
least significant). -/
def romLEVal (rom : List Nat) : Nat :=
  rom.foldr (fun b acc => b + 256 * acc) 0

/-- Bit `i` (transmission order, LSB of octet 0 first) of a ROM. -/
def devBit (dev : List Nat) (i : Nat) : Bool :=
  (dev.getD (i / 8) 0).testBit (i % 8)

/-- Octet-level state of a simulated 1-Wire bus holding a fixed set of
slave ROMs: current baudrate, whether a ROM search is in progress, the
devices still participating in the current pass, the bit position being
resolved and which of the three per-bit exchanges comes next. -/
structure Bus where
  devs : List (List Nat)
  baud : Nat
  inSearch : Bool
  parts : List (List Nat)
  bitIdx : Nat
  sub : Nat
  deriving DecidableEq, Repr

/-- Transport behaviour of the simulated bus.  At 9600 baud the exchange is
the reset pulse: with at least one device attached the sampled octet is
`0x50` (a presence pulse distorting the echo), otherwise the pure echo
`0xF0`.  At 115200 baud, an 8-octet exchange carrying the SEARCH_ROM
command (0xF0) starts a search; during a search the three per-bit
exchanges are: wired-AND of the participants' bit, wired-AND of its
complement, then the master's direction write, which drops every
participant whose bit differs. -/
def busTxRx (tx : List Nat) (s : Bus) : Option (List Nat) × Bus :=
  if s.baud = 9600 then
    if s.devs.isEmpty then (some tx, { s with inSearch := false })
    else (some [0x50], { s with inSearch := false })
  else if s.inSearch = false then
    if tx.length = 8 ∧ readByteOfRx tx = 0xF0 then
      (some tx, { s with inSearch := true, parts := s.devs, bitIdx := 0, sub := 0 })
    else (some tx, s)
  else
    match s.sub with
    | 0 => (some [if s.parts.all (fun dev => devBit dev s.bitIdx) then 0xFF else 0x00],
            { s with sub := 1 })
    | 1 => (some [if s.parts.all (fun dev => !devBit dev s.bitIdx) then 0xFF else 0x00],
            { s with sub := 2 })
    | _ =>
      let bit : Bool := tx.getD 0 0 = 0xFF
      let parts1 := s.parts.filter (fun dev => devBit dev s.bitIdx == bit)
      (some tx, { s with parts := parts1, bitIdx := s.bitIdx + 1, sub := 0 })

/-- The simulated bus as a driver. -/
def busDrv : LLDrv Bus :=
  ⟨fun r s => (true, { s with baud := r }), busTxRx⟩

/-- Fresh bus holding the given devices. -/
def busInit (devs : List (List Nat)) : Bus :=
  ⟨devs, 115200, false, [], 0, 0⟩

/-- Device `10 00 00 00 00 00 00 00` of the two-device scenario. -/
def romA : List Nat := [0x10, 0x00, 0, 0, 0, 0, 0, 0]

/-- Device `10 01 00 00 00 00 00 00` of the two-device scenario; differs
from `romA` only in ROM bit 8. -/
def romB : List Nat := [0x10, 0x01, 0, 0, 0, 0, 0, 0]

/-- Fresh session: zeroed ROM buffer, marker as set by `ow_search_reset_raw`. -/
def freshSession : OwState := ow_search_reset_raw ⟨List.replicate 8 0, 0⟩

/-- First SEARCH_ROM pass over the two-device bus. -/
def twoDevRun1 : SearchRes Bus :=
  ow_search_with_command_raw busDrv freshSession 0xF0 (busInit [romA, romB])

/-- Second SEARCH_ROM pass over the two-device bus. -/
def twoDevRun2 : SearchRes Bus :=
  ow_search_with_command_raw busDrv twoDevRun1.st 0xF0 twoDevRun1.s

/-- Third SEARCH_ROM pass over the two-device bus. -/
def twoDevRun3 : SearchRes Bus :=
  ow_search_with_command_raw busDrv twoDevRun2.st 0xF0 twoDevRun2.s

/-- Driver that succeeds at everything and echoes every exchange: a UART
wired to an empty 1-Wire line (nothing ever pulls the line low). -/
def echoDrv : LLDrv Unit :=
  ⟨fun _ u => (true, u), fun tx u => (some tx, u)⟩

/-- First search call after a search reset against the empty (pure echo)
bus. -/
def emptyBusRun : SearchRes Unit :=
  ow_search_with_command_raw echoDrv freshSession 0xF0 ()

/-- Driver whose state is the current baudrate: the reset exchange at 9600
baud samples `0x50` (presence reported), every 115200-baud exchange is a
pure echo, so both bits of every search triple read 1 (no slave
participates). -/
def presenceSilentDrv : LLDrv Nat :=
  ⟨fun r _ => (true, r), fun tx b => (some (if b = 9600 then [0x50] else tx), b)⟩

/-- First search call after a search reset against the presence-but-silent
transport: reset succeeds, then the very first `(1,1)` read aborts the
pass. -/
def silentRun : SearchRes Nat :=
  ow_search_with_command_raw presenceSilentDrv freshSession 0xF0 115200

/-- Driver producing a collision at every bit position: reset samples
`0x50`, every single-octet exchange (both bit reads and the direction
write) samples `0x00`, every longer exchange echoes. -/
def allCollisionDrv : LLDrv Nat :=
  ⟨fun r _ => (true, r),
   fun tx b => (some (if b = 9600 then [0x50]
                      else if tx.length = 1 then [0x00] else tx), b)⟩

/-- A search pass against `allCollisionDrv` from a session whose marker is
64: the first bit position processed (p = 64) is a discrepancy with
`p = disrepancy_prev`. -/
def equalMarkerRun : SearchRes Nat :=
  ow_search_with_command_raw allCollisionDrv ⟨List.replicate 8 0, 64⟩ 0xF0 115200

/-- A callback that accepts every ROM and keeps no state. -/
def acceptAllCb : Option (List Nat) → Nat → Unit → Owr × Unit :=
  fun _ _ _ => (.ok, ())

/-- The batch callback search run against the presence-but-silent transport
(zero devices found). -/
def silentCallbackRun : Option (Owr × OwState × Nat × Unit × Nat) :=
  ow_search_with_command_callback presenceSilentDrv 0xF0 acceptAllCb 2
    ⟨List.replicate 8 0, 0⟩ 115200 ()

/-- The batch array search (one slot) run against the presence-but-silent
transport (zero devices found). -/
def silentDevicesRun : Owr × OwState × Nat × List (List Nat) × Nat :=
  ow_search_devices_with_command_raw presenceSilentDrv 0xF0 1
    ⟨List.replicate 8 0, 0⟩ 115200

/-- Driver whose `set_baudrate` always fails. -/
def alwaysBadBaudDrv : LLDrv Unit :=
  ⟨fun _ u => (false, u), fun tx u => (some tx, u)⟩

/-- Driver that accepts only 9600 baud (the restore to 115200 fails) and
echoes every exchange; its state is the current baudrate. -/
def badRestoreDrv : LLDrv Nat :=
  ⟨fun r _ => (decide (r = 9600), r), fun tx b => (some tx, b)⟩

/-! ## Theorems -/

/-- Exhaustive case split of `ow_reset_raw` over the transport's behaviour:
first baudrate change fails; exchange fails; restoring baudrate change
fails; presence failure; success.  In each case the full result (code,
driver state, trace) is determined. -/
theorem reset_cases {σ : Type} (d : LLDrv σ) (s : σ) :
    (∃ s1, d.set_baudrate 9600 s = (false, s1) ∧
      ow_reset_raw d s = ⟨.errbaud, s1, [.setBaud 9600 false]⟩) ∨
    (∃ s1 s2, d.set_baudrate 9600 s = (true, s1) ∧
      d.tx_rx [0xF0] s1 = (none, s2) ∧
      ow_reset_raw d s = ⟨.errtxrx, s2, [.setBaud 9600 true, .txRx [0xF0] none]⟩) ∨
    (∃ s1 raw s2 s3, d.set_baudrate 9600 s = (true, s1) ∧
      d.tx_rx [0xF0] s1 = (some raw, s2) ∧
      d.set_baudrate 115200 s2 = (false, s3) ∧
      ow_reset_raw d s = ⟨.errbaud, s3,
        [.setBaud 9600 true, .txRx [0xF0] (some [raw.headD 0]),
         .setBaud 115200 false]⟩) ∨
    (∃ s1 raw s2 s3, d.set_baudrate 9600 s = (true, s1) ∧
      d.tx_rx [0xF0] s1 = (some raw, s2) ∧
      d.set_baudrate 115200 s2 = (true, s3) ∧
      (raw.headD 0 = 0 ∨ raw.headD 0 = 0xF0) ∧
      ow_reset_raw d s = ⟨.errpresence, s3,
        [.setBaud 9600 true, .txRx [0xF0] (some [raw.headD 0]),
         .setBaud 115200 true]⟩) ∨
    (∃ s1 raw s2 s3, d.set_baudrate 9600 s = (true, s1) ∧
      d.tx_rx [0xF0] s1 = (some raw, s2) ∧
      d.set_baudrate 115200 s2 = (true, s3) ∧
      ¬(raw.headD 0 = 0 ∨ raw.headD 0 = 0xF0) ∧
      ow_reset_raw d s = ⟨.ok, s3,
        [.setBaud 9600 true, .txRx [0xF0] (some [raw.headD 0]),
         .setBaud 115200 true]⟩) := by
  rcases h1 : d.set_baudrate 9600 s with ⟨ok1, s1⟩
  cases ok1
  · exact Or.inl ⟨s1, rfl, by simp [ow_reset_raw, h1]⟩
  · rcases h2 : d.tx_rx [0xF0] s1 with ⟨orx, s2⟩
    cases orx with
    | none =>
        exact Or.inr (Or.inl ⟨s1, s2, rfl, h2,
          by simp [ow_reset_raw, LLDrv.txRxN, h1, h2]⟩)
    | some raw =>
        rcases h3 : d.set_baudrate 115200 s2 with ⟨ok3, s3⟩
        cases ok3
        · exact Or.inr (Or.inr (Or.inl ⟨s1, raw, s2, s3, rfl, h2, h3,
            by simp [ow_reset_raw, LLDrv.txRxN, padTake, h1, h2, h3]⟩))
        · by_cases hb : raw.headD 0 = 0 ∨ raw.headD 0 = 0xF0
          · refine Or.inr (Or.inr (Or.inr (Or.inl
              ⟨s1, raw, s2, s3, rfl, h2, h3, hb, ?_⟩)))
            rcases hb with hb | hb <;>
              simp_all [ow_reset_raw, LLDrv.txRxN, padTake]
          · refine Or.inr (Or.inr (Or.inr (Or.inr
              ⟨s1, raw, s2, s3, rfl, h2, h3, hb, ?_⟩)))
            push_neg at hb
            simp_all [ow_reset_raw, LLDrv.txRxN, padTake]

/-- `ow_reset_raw` never reports `errnodev`. -/
theorem ow_reset_raw_ne_nodev {σ : Type} (d : LLDrv σ) (s : σ) :
    (ow_reset_raw d s).res ≠ .errnodev := by
  rcases reset_cases d s with ⟨_, _, hE⟩ | ⟨_, _, _, _, hE⟩ |
    ⟨_, _, _, _, _, _, _, hE⟩ | ⟨_, _, _, _, _, _, _, _, hE⟩ |
    ⟨_, _, _, _, _, _, _, _, hE⟩ <;> rw [hE] <;> simp

/-- Claim C3: for every reset call that returns OK, the transport observed
exactly three calls, in order: `set_baudrate(9600)`, one 1-octet exchange
transmitting `0xF0`, and `set_baudrate(115200)`; in particular the baudrate
is restored to 115200 before the OK return. -/
theorem reset_ok_transport_trace {σ : Type} (d : LLDrv σ) (s : σ)
    (h : (ow_reset_raw d s).res = .ok) :
    ∃ b, (ow_reset_raw d s).events =
      [Event.setBaud 9600 true, Event.txRx [0xF0] (some [b]),
       Event.setBaud 115200 true] := by
  rcases reset_cases d s with ⟨_, _, hE⟩ | ⟨_, _, _, _, hE⟩ |
    ⟨_, _, _, _, _, _, _, hE⟩ | ⟨_, _, _, _, _, _, _, _, hE⟩ |
    ⟨s1, raw, s2, s3, h1, h2, h3, hb, hE⟩
  · rw [hE] at h; simp at h
  · rw [hE] at h; simp at h
  · rw [hE] at h; simp at h
  · rw [hE] at h; simp at h
  · exact ⟨raw.headD 0, by rw [hE]⟩

/-- Witness for C3 at a concrete transport whose reset exchange samples
`0x50`. -/
theorem reset_ok_transport_trace_witness :
    ∃ b, (ow_reset_raw presenceSilentDrv 115200).events =
      [Event.setBaud 9600 true, Event.txRx [0xF0] (some [b]),
       Event.setBaud 115200 true] :=
  reset_ok_transport_trace presenceSilentDrv 115200 (by decide)

/-- Claim C4: when both baudrate changes and the octet exchange succeed at
the transport, reset returns ERRPRESENCE exactly for sampled octets `0x00`
and `0xF0`, and OK for every other sampled value. -/
theorem reset_presence_decision {σ : Type} (d : LLDrv σ) (s s1 s2 s3 : σ)
    (raw : List Nat)
    (h1 : d.set_baudrate 9600 s = (true, s1))
    (h2 : d.tx_rx [0xF0] s1 = (some raw, s2))
    (h3 : d.set_baudrate 115200 s2 = (true, s3)) :
    (ow_reset_raw d s).res =
      if raw.headD 0 = 0 ∨ raw.headD 0 = 0xF0 then .errpresence else .ok := by
  by_cases hb : raw.headD 0 = 0 ∨ raw.headD 0 = 0xF0
  · rw [if_pos hb]
    rcases hb with hb | hb <;>
      simp_all [ow_reset_raw, LLDrv.txRxN, padTake]
  · rw [if_neg hb]
    push_neg at hb
    simp_all [ow_reset_raw, LLDrv.txRxN, padTake]

/-- Witness for C4: sampled octet `0x50` yields OK. -/
theorem reset_presence_decision_witness :
    (ow_reset_raw presenceSilentDrv 115200).res =
      if ([0x50] : List Nat).headD 0 = 0 ∨ ([0x50] : List Nat).headD 0 = 0xF0
      then Owr.errpresence else Owr.ok :=
  reset_presence_decision presenceSilentDrv 115200 9600 9600 115200 [0x50]
    rfl rfl rfl

/-- Claim C8: if the first `set_baudrate(9600)` fails, reset returns
ERRBAUD without any `tx_rx` call (the whole trace is that one failed
baudrate call); if instead the restoring `set_baudrate(115200)` fails after
the exchange, reset returns ERRBAUD rather than OK. -/
theorem reset_baud_failure :
    (∀ (σ : Type) (d : LLDrv σ) (s s1 : σ),
      d.set_baudrate 9600 s = (false, s1) →
      ow_reset_raw d s = ⟨.errbaud, s1, [Event.setBaud 9600 false]⟩) ∧
    (∀ (σ : Type) (d : LLDrv σ) (s s1 s2 s3 : σ) (raw : List Nat),
      d.set_baudrate 9600 s = (true, s1) →
      d.tx_rx [0xF0] s1 = (some raw, s2) →
      d.set_baudrate 115200 s2 = (false, s3) →
      (ow_reset_raw d s).res = .errbaud) := by
  constructor
  · intro σ d s s1 h1
    simp [ow_reset_raw, h1]
  · intro σ d s s1 s2 s3 raw h1 h2 h3
    simp [ow_reset_raw, LLDrv.txRxN, h1, h2, h3]

/-- Witness for C8: a driver refusing all baudrates, and a driver refusing
only the restore to 115200. -/
theorem reset_baud_failure_witness :
    ow_reset_raw alwaysBadBaudDrv () =
      ⟨Owr.errbaud, (), [Event.setBaud 9600 false]⟩ ∧
    (ow_reset_raw badRestoreDrv 0).res = Owr.errbaud :=
  ⟨reset_baud_failure.1 Unit alwaysBadBaudDrv () () rfl,
   reset_baud_failure.2 Nat badRestoreDrv 0 9600 9600 115200 [0xF0]
     (by decide) (by decide) (by decide)⟩

/-- Test bit `i` of an or-accumulating fold over bit indices: bit `i` of
the accumulator survives, and position `i` contributes exactly when `i`
occurs in the index list and its condition holds. -/
theorem readFold_testBit (c : Nat → Prop) [DecidablePred c] (l : List Nat)
    (acc : Nat) (i : Nat) :
    ((l.foldl (fun r j => if c j then r ||| (1 <<< j) else r) acc).testBit i) =
      (acc.testBit i || (l.contains i && decide (c i))) := by
  induction l generalizing acc with
  | nil => simp
  | cons j t ih =>
      rw [List.foldl_cons, ih]
      by_cases hji : j = i
      · subst hji
        by_cases hc : c j
        · rw [if_pos hc, Nat.testBit_or, Nat.one_shiftLeft,
            Nat.testBit_two_pow_self, decide_eq_true hc]
          simp [List.contains_cons]
        · rw [if_neg hc, decide_eq_false hc]
          simp [List.contains_cons]
      · have hb : (1 <<< j).testBit i = false := by
          rw [Nat.one_shiftLeft]
          exact Nat.testBit_two_pow_of_ne hji
        have hcons : ((j :: t).contains i) = t.contains i := by
          simp [List.contains_cons, Ne.symm hji]
        rw [hcons]
        by_cases hc : c j
        · rw [if_pos hc, Nat.testBit_or, hb, Bool.or_false]
        · rw [if_neg hc]

/-- Bit `i` of the reassembled read byte is set exactly when the `i`-th
received octet is `0xFF`. -/
theorem readByteOfRx_testBit (rx : List Nat) (i : Nat) (hi : i < 8) :
    ((readByteOfRx rx).testBit i ↔ rx.getD i 0 = 0xFF) := by
  unfold readByteOfRx
  rw [readFold_testBit (fun j => rx.getD j 0 = 0xFF)]
  have hc : ([0, 1, 2, 3, 4, 5, 6, 7] : List Nat).contains i = true := by
    interval_cases i <;> decide
  rw [hc]
  simp only [Nat.zero_testBit, Bool.false_or, Bool.true_and, decide_eq_true_eq]

/-- Tx octet `i` prepared for a byte write is `0xFF` when bit `i` of the
byte is set, `0x00` otherwise. -/
theorem txBytesOfByte_getD (b i : Nat) (hi : i < 8) :
    (txBytesOfByte b).getD i 0 = if b.testBit i then 0xFF else 0x00 := by
  interval_cases i <;> rfl

/-- Claim C5: every byte write is exactly one 8-octet exchange whose `i`-th
tx octet is `0xFF` iff bit `i` of the byte is set; the byte reported back
has bit `i` set iff the `i`-th rx octet of that exchange is `0xFF`; and a
byte read is exactly a byte write of `0xFF`. -/
theorem write_byte_exchange_spec {σ : Type} (d : LLDrv σ) (s : σ) (b : Nat) :
    (∃ r, (ow_write_byte_ex_raw d s b).events = [Event.txRx (txBytesOfByte b) r]) ∧
    (∀ i, i < 8 → (txBytesOfByte b).getD i 0 = if b.testBit i then 0xFF else 0x00) ∧
    (∀ rx, (ow_write_byte_ex_raw d s b).events =
        [Event.txRx (txBytesOfByte b) (some rx)] →
      ∀ i, i < 8 →
        ((ow_write_byte_ex_raw d s b).val.testBit i ↔ rx.getD i 0 = 0xFF)) ∧
    ow_read_byte_ex_raw d s = ow_write_byte_ex_raw d s 0xFF := by
  refine ⟨?_, fun i hi => txBytesOfByte_getD b i hi, ?_, rfl⟩
  · rcases h : d.txRxN (txBytesOfByte b) s with ⟨orx, s1⟩
    cases orx with
    | none => exact ⟨none, by simp [ow_write_byte_ex_raw, h]⟩
    | some rx => exact ⟨some rx, by simp [ow_write_byte_ex_raw, h]⟩
  · intro rx hev i hi
    rcases h : d.txRxN (txBytesOfByte b) s with ⟨orx, s1⟩
    cases orx with
    | none =>
        rw [show (ow_write_byte_ex_raw d s b).events = [Event.txRx (txBytesOfByte b) none]
          from by simp [ow_write_byte_ex_raw, h]] at hev
        simp at hev
    | some rx1 =>
        have hev1 : (ow_write_byte_ex_raw d s b).events =
            [Event.txRx (txBytesOfByte b) (some rx1)] := by
          simp [ow_write_byte_ex_raw, h]
        rw [hev1] at hev
        simp at hev
        have hval : (ow_write_byte_ex_raw d s b).val = readByteOfRx rx1 := by
          simp [ow_write_byte_ex_raw, h]
        rw [hval, hev]
        exact readByteOfRx_testBit rx i hi

/-- Witness for C5 at the echo transport and byte `0xA5`; the last conjunct
discharges the rx-linkage hypothesis at the concrete exchanged octets. -/
theorem write_byte_exchange_spec_witness :
    (∃ r, (ow_write_byte_ex_raw echoDrv () 0xA5).events =
      [Event.txRx (txBytesOfByte 0xA5) r]) ∧
    ow_read_byte_ex_raw echoDrv () = ow_write_byte_ex_raw echoDrv () 0xFF ∧
    (∀ i, i < 8 →
      ((ow_write_byte_ex_raw echoDrv () 0xA5).val.testBit i ↔
        (padTake 8 (txBytesOfByte 0xA5)).getD i 0 = 0xFF)) := by
  have h := write_byte_exchange_spec echoDrv () 0xA5
  exact ⟨h.1, h.2.2.2, h.2.2.1 (padTake 8 (txBytesOfByte 0xA5)) (by decide)⟩

/-- One CRC bit step keeps the CRC below 256. -/
theorem crcBitStep_fst_lt (p : Nat × Nat) (h : p.1 < 256) :
    (crcBitStep p).1 < 256 := by
  rcases p with ⟨c, b⟩
  have hc : c >>> 1 < 256 := by
    rw [Nat.shiftRight_eq_div_pow]
    exact lt_of_le_of_lt (Nat.div_le_self _ _) h
  unfold crcBitStep
  dsimp only
  split
  · have h8 : (0x8C : Nat) < 2 ^ 8 := by norm_num
    have hc8 : c >>> 1 < 2 ^ 8 := by simpa using hc
    simpa using Nat.xor_lt_two_pow hc8 h8
  · exact hc

/-- Absorbing a byte keeps the CRC below 256. -/
theorem crcByte_lt (c b : Nat) (h : c < 256) : crcByte c b < 256 :=
  crcBitStep_fst_lt _ (crcBitStep_fst_lt _ (crcBitStep_fst_lt _
    (crcBitStep_fst_lt _ (crcBitStep_fst_lt _ (crcBitStep_fst_lt _
      (crcBitStep_fst_lt _ (crcBitStep_fst_lt (c, b) h)))))))

/-- Folding `crcByte` over a list keeps the CRC below 256. -/
theorem foldl_crcByte_lt (l : List Nat) :
    ∀ c, c < 256 → l.foldl crcByte c < 256 := by
  induction l with
  | nil => intro c hc; simpa using hc
  | cons x xs ih =>
      intro c hc
      simpa [List.foldl_cons] using ih (crcByte c x) (crcByte_lt c x hc)

/-- The CRC value is always an octet. -/
theorem ow_crc_lt (l : List Nat) : ow_crc l < 256 :=
  foldl_crcByte_lt l 0 (by norm_num)

set_option maxRecDepth 40000 in
/-- Absorbing the current CRC value into the CRC yields zero, for every
octet value. -/
theorem crcByte_self (c : Nat) (h : c < 256) : crcByte c c = 0 := by
  have key : ∀ x : Fin 256, crcByte x.val x.val = 0 := by decide
  exact key ⟨c, h⟩

/-- Claim C9: appending the CRC of a buffer to the buffer and recomputing
the CRC yields zero: `ow_crc (buf ++ [ow_crc buf]) = 0`. -/
theorem ow_crc_chain (buf : List Nat) : ow_crc (buf ++ [ow_crc buf]) = 0 := by
  have h1 : ow_crc (buf ++ [ow_crc buf]) = crcByte (ow_crc buf) (ow_crc buf) := by
    simp [ow_crc, List.foldl_append]
  rw [h1]
  exact crcByte_self (ow_crc buf) (ow_crc_lt buf)

/-- Amended claim C1: at a discrepancy read at position `p` the master
chooses 1 and records `p` as the pending discrepancy when
`p < disrepancy_prev`; chooses 0 (recording nothing) when
`p = disrepancy_prev`; and when `p > disrepancy_prev` repeats the bit
stored in the ROM buffer from the prior pass (the LSB of the current ROM
byte), recording `p` exactly when that bit is 1.  Recordings happen in
decreasing `p` order, so the last (lowest-numbered) recorded `p` becomes
the new marker. -/
theorem searchChoose_characterization (p dis cur : Nat) :
    searchChoose p dis cur =
      if p < dis then (1, true)
      else if p = dis then (0, false)
      else if cur &&& 1 ≠ 0 then (1, true) else (0, false) := by
  unfold searchChoose
  rcases Nat.lt_trichotomy p dis with h | h | h
  · simp [h]
  · subst h
    simp
  · have h1 : ¬p < dis := Nat.lt_asymm h
    have h2 : p ≠ dis := (Nat.ne_of_lt h).symm
    have h3 : dis ≠ p := Nat.ne_of_lt h
    by_cases hc : (cur &&& 1) ≠ 0 <;> simp [h1, h2, h3, hc]

set_option maxRecDepth 40000 in
/-- Counterexample to claim C1 as stated: a search pass over a transport
producing a discrepancy at every position, started with marker
`disrepancy = 64`.  At the first position `p = 64 = disrepancy_prev` the
claim says the master chooses 1, but the code chooses 0: the completed
pass returns ROM `FE FF FF FF FF FF FF FF`, whose bit at the first
transmitted position (ROM bit 0) is 0, and the new marker is 1 (the
lowest-numbered recorded discrepancy, not the highest). -/
theorem search_equal_marker_chooses_zero_cex :
    equalMarkerRun.res = .ok ∧
    equalMarkerRun.written = some (0xFE :: List.replicate 7 0xFF) ∧
    ((equalMarkerRun.written.getD []).getD 0 0).testBit 0 = false ∧
    equalMarkerRun.st.disrepancy = 1 := by decide

set_option maxRecDepth 40000 in
/-- Counterexample to claim C2 as stated: on the two-device bus
`{10 00 …, 10 01 …}` the first search call returns `10 01 …`, not
`10 00 …` — the enumeration starts at the other branch. -/
theorem two_device_first_rom_cex :
    twoDevRun1.res = .ok ∧ twoDevRun1.written = some romB ∧ romB ≠ romA := by
  decide

set_option maxRecDepth 40000 in
/-- Amended claim C2: over the complete enumeration of the fixed two-device
set `{10 00 …, 10 01 …}` against a transport faithfully modelling those
devices, the ROMs returned by successive search calls are strictly
DEcreasing as 64-bit little-endian integers: the first call returns
`10 01 …`, the second `10 00 …`, and the third ERRNODEV. -/
theorem two_device_enumeration_decreasing :
    twoDevRun1.res = .ok ∧ twoDevRun1.written = some romB ∧
    twoDevRun2.res = .ok ∧ twoDevRun2.written = some romA ∧
    twoDevRun3.res = .errnodev ∧
    romLEVal romA < romLEVal romB := by decide

set_option maxRecDepth 40000 in
/-- Counterexample to claim C6 as stated: against the transport faithfully
modelling an empty bus (every exchange echoes, so the reset exchange
samples `0xF0`), the first search call after a search reset returns
ERRPRESENCE — not ERRNODEV — because the embedded reset fails first. -/
theorem empty_bus_search_cex :
    emptyBusRun.res = .errpresence ∧ Owr.errpresence ≠ Owr.errnodev := by
  decide

set_option maxRecDepth 40000 in
/-- Amended claim C6: on the pure-echo empty bus the first search call
after a search reset returns ERRPRESENCE (the reset preceding the search
detects no presence); ERRNODEV arises on the first call only when the
transport reports presence at reset but no slave participates in the
search (both bits of the first triple read 1). -/
theorem empty_bus_search_amended :
    emptyBusRun.res = .errpresence ∧ silentRun.res = .errnodev := by decide

/-- When the epilogue dispatch reports ERRNODEV, the caller's out-parameter
received the session ROM buffer and the marker was overwritten with the
accumulated `next_disrepancy`. -/
theorem searchFinish_nodev {σ : Type} (st : OwState) (pre : List Event)
    (lr : LoopRes σ) (h : (searchFinish st pre lr).res = .errnodev) :
    (searchFinish st pre lr).written = some (searchFinish st pre lr).st.rom ∧
    (searchFinish st pre lr).st.disrepancy = lr.nextDis ∧
    (searchFinish st pre lr).st.rom = lr.rom := by
  rcases lr with ⟨ex, rom, nd, s, ev⟩
  cases ex <;> simp_all [searchFinish]

/-- Claim C10: whenever a search pass aborts mid-way with ERRNODEV after
passing the last-device check (marker nonzero), the caller's out-parameter
is still written: it receives the session ROM buffer — the buffer and the
marker being exactly those accumulated by the (partial) 64-bit loop. -/
theorem search_abort_writes_out {σ : Type} (d : LLDrv σ) (st : OwState)
    (cmd : Nat) (s : σ) (hd : st.disrepancy ≠ 0)
    (h : (ow_search_with_command_raw d st cmd s).res = .errnodev) :
    (ow_search_with_command_raw d st cmd s).written =
      some (ow_search_with_command_raw d st cmd s).st.rom ∧
    ∃ s2, (ow_search_with_command_raw d st cmd s).st.disrepancy =
        (searchLoop d 64 s2 st.rom st.disrepancy 0).nextDis ∧
      (ow_search_with_command_raw d st cmd s).st.rom =
        (searchLoop d 64 s2 st.rom st.disrepancy 0).rom := by
  unfold ow_search_with_command_raw at h ⊢
  rw [if_neg hd] at h ⊢
  dsimp only at h ⊢
  by_cases hok : (ow_reset_raw d s).res = .ok
  · rw [if_pos hok] at h ⊢
    have hf := searchFinish_nodev _ _ _ h
    exact ⟨hf.1, (ow_write_byte_ex_raw d (ow_reset_raw d s).s cmd).s,
      hf.2.1, hf.2.2⟩
  · rw [if_neg hok] at h
    simp at h
    exact absurd h (ow_reset_raw_ne_nodev d s)

set_option maxRecDepth 40000 in
/-- Witness for C10: the presence-but-silent transport aborts the pass at
the first bit triple. -/
theorem search_abort_writes_out_witness :
    (ow_search_with_command_raw presenceSilentDrv freshSession 0xF0 115200).written =
      some (ow_search_with_command_raw presenceSilentDrv freshSession 0xF0 115200).st.rom ∧
    ∃ s2, (ow_search_with_command_raw presenceSilentDrv freshSession 0xF0 115200).st.disrepancy =
        (searchLoop presenceSilentDrv 64 s2 freshSession.rom freshSession.disrepancy 0).nextDis ∧
      (ow_search_with_command_raw presenceSilentDrv freshSession 0xF0 115200).st.rom =
        (searchLoop presenceSilentDrv 64 s2 freshSession.rom freshSession.disrepancy 0).rom :=
  search_abort_writes_out presenceSilentDrv freshSession 0xF0 115200
    (by decide) (by decide)

set_option maxRecDepth 40000 in
/-- Counterexample to claim C7 as stated: against the presence-but-silent
transport the underlying search finds zero devices and ends with ERRNODEV,
yet `ow_search_with_command_callback` still reports OK (its ERRNODEV → OK
rewrite is unconditional), instead of returning ERRNODEV to the caller. -/
theorem callback_zero_devices_ok_cex :
    silentCallbackRun = some (Owr.ok, ⟨List.replicate 8 0, 0⟩, 115200, (), 0) ∧
    Owr.ok ≠ Owr.errnodev := by decide

/-- Amended claim C7: `ow_search_with_command_callback` replaces an
ERRNODEV result of the underlying search loop with OK unconditionally —
also when zero devices were found; `ow_search_devices_with_command_raw`
replaces it with OK exactly when at least one ROM was stored, and returns
ERRNODEV when zero were. -/
theorem nodev_folding_amended :
    (∀ (σ κ : Type) (d : LLDrv σ) (cmd : Nat)
       (cb : Option (List Nat) → Nat → κ → Owr × κ) (fuel : Nat)
       (st st1 : OwState) (s s1 : σ) (k k1 : κ) (i : Nat),
      searchCallbackLoop d cmd cb fuel (ow_search_reset_raw st) s k 0 =
        some (.errnodev, st1, s1, k1, i) →
      ow_search_with_command_callback d cmd cb fuel st s k =
        some (.ok, st1, s1, (cb none i k1).2, i)) ∧
    (∀ (σ : Type) (d : LLDrv σ) (cmd rom_len : Nat) (st st1 : OwState)
       (s s1 : σ) (roms : List (List Nat)),
      searchDevicesLoop d cmd rom_len (ow_search_reset_raw st) s =
        (.errnodev, st1, s1, roms) →
      ow_search_devices_with_command_raw d cmd rom_len st s =
        ((if 0 < roms.length then .ok else .errnodev), st1, s1, roms,
          roms.length)) := by
  constructor
  · intro σ κ d cmd cb fuel st st1 s s1 k k1 i hloop
    unfold ow_search_with_command_callback
    rw [hloop]
    rfl
  · intro σ d cmd rom_len st st1 s s1 roms hloop
    unfold ow_search_devices_with_command_raw
    rw [hloop]
    by_cases hlen : 0 < roms.length <;> simp [hlen]

set_option maxRecDepth 40000 in
/-- Witness for the amended C7, at the presence-but-silent transport:
the callback helper reports OK at zero devices, the array helper reports
ERRNODEV. -/
theorem nodev_folding_amended_witness :
    ow_search_with_command_callback presenceSilentDrv 0xF0 acceptAllCb 2
        ⟨List.replicate 8 0, 0⟩ 115200 () =
      some (Owr.ok, ⟨List.replicate 8 0, 0⟩, 115200, (), 0) ∧
    ow_search_devices_with_command_raw presenceSilentDrv 0xF0 1
        ⟨List.replicate 8 0, 0⟩ 115200 =
      (Owr.errnodev, ⟨List.replicate 8 0, 0⟩, 115200, [], 0) := by
  constructor
  · exact nodev_folding_amended.1 Nat Unit presenceSilentDrv 0xF0 acceptAllCb 2
      ⟨List.replicate 8 0, 0⟩ ⟨List.replicate 8 0, 0⟩ 115200 115200 () () 0
      (by decide)
  · have h := nodev_folding_amended.2 Nat presenceSilentDrv 0xF0 1
      ⟨List.replicate 8 0, 0⟩ ⟨List.replicate 8 0, 0⟩ 115200 115200 []
      (by decide)
    simpa using h
